import Mathlib

/-!
Verification of the WhatsApp inbound-message routing and delivery pipeline
of the expertprospection repository.

The TypeScript source is shallowly embedded: pure string helpers become
Lean functions on `List Char` / `String`, fallible operations return
`Except String _`, database tables become lists of records threaded
through the functions, and the remote collaborators (provider send API,
HEAD probe, LLM completion, subscription check) become oracle fields of
an environment record, so that every control-flow branch of the source is
represented.  Wall-clock timestamps are abstracted away (the `timestamp`
fields of results are not modelled); console logging is dropped.
-/

namespace ExpertProspection

/-- JavaScript `\s` character class (the whitespace set used by
`replace(/\s+/g, ' ')` and `String.prototype.trim`). -/
def isJsWs (c : Char) : Bool :=
  c = ' ' || c = '\t' || c = '\n' || c = '\r' ||
  c.toNat == 0x0b || c.toNat == 0x0c ||
  c.toNat == 0xa0 || c.toNat == 0x1680 ||
  (0x2000 ≤ c.toNat && c.toNat ≤ 0x200a) ||
  c.toNat == 0x2028 || c.toNat == 0x2029 || c.toNat == 0x202f ||
  c.toNat == 0x205f || c.toNat == 0x3000 || c.toNat == 0xfeff

/-- Character class `[a-zA-Z0-9#]` of the generic HTML-entity removal regex. -/
def entChar (c : Char) : Bool :=
  ('a' ≤ c && c ≤ 'z') || ('A' ≤ c && c ≤ 'Z') || ('0' ≤ c && c ≤ '9') || c = '#'

/-- JS `String.prototype.includes`: does `needle` occur contiguously in the list? -/
def jsIncludes (needle : List Char) : List Char → Bool
  | [] => needle.isEmpty
  | c :: t => needle.isPrefixOf (c :: t) || jsIncludes needle t

/-- If `needle` is a prefix of the list, return the remainder after it. -/
def chopLead : List Char → List Char → Option (List Char)
  | [], l => some l
  | _ :: _, [] => none
  | n :: ns, c :: t => if n = c then chopLead ns t else none

/-- One pass of JS `replace(/<[^>]*>/g, '')` (strip markup tags, including a
tag whose body contains further `<`), as a left-to-right scanner.  The first
argument is the buffer (in reverse) of a pending `<...` that has not met its
`>` yet; at end of input an unterminated buffer is flushed unchanged, which
matches the regex semantics (a `<` with no later `>` matches nothing). -/
def rmTagsAux : Option (List Char) → List Char → List Char
  | none, [] => []
  | some buf, [] => buf.reverse
  | none, c :: t => if c = '<' then rmTagsAux (some [c]) t else c :: rmTagsAux none t
  | some buf, c :: t => if c = '>' then rmTagsAux none t else rmTagsAux (some (c :: buf)) t

/-- Step 1 of the sanitizers: `message.replace(/<[^>]*>/g, '')`. -/
def rmTags (l : List Char) : List Char := rmTagsAux none l

/-- Step 2 of the sanitizers: `replace(/[<>]/g, '')`. -/
def rmAngles (l : List Char) : List Char :=
  l.filter (fun c => !(c = '<' || c = '>'))

/-- Fuelled global literal replacement, JS `replace(new RegExp(needle, 'g'),
repl)` for a literal `needle`: leftmost, non-overlapping, the replacement text
is not rescanned.  Fuel only guards termination; with `fuel ≥ l.length` and a
nonempty needle it never runs out. -/
def replA (needle repl : List Char) : Nat → List Char → List Char
  | _, [] => []
  | 0, l => l
  | f + 1, c :: t =>
    match chopLead needle (c :: t) with
    | some rest => repl ++ replA needle repl f rest
    | none => c :: replA needle repl f t

/-- JS global literal string replacement. -/
def replaceGlobal (needle repl l : List Char) : List Char :=
  replA needle repl l.length l

/-- The fixed HTML-entity decode table of `sanitizeWhatsAppMessage`, in the
iteration order of `Object.entries(htmlEntities)` (source string insertion
order).  The replacements are applied sequentially, one global pass each. -/
def htmlEntities : List (List Char × List Char) :=
  [("&amp;".data, "&".data),
   ("&lt;".data, "<".data),
   ("&gt;".data, ">".data),
   ("&quot;".data, "\"".data),
   ("&#39;".data, "\x27".data),
   ("&nbsp;".data, " ".data),
   ("&copy;".data, "©".data),
   ("&reg;".data, "®".data),
   ("&trade;".data, "™".data)]

/-- Step 3 of `sanitizeWhatsAppMessage`: decode the fixed entity table,
one sequential global replace per entry. -/
def decodeEntities (l : List Char) : List Char :=
  htmlEntities.foldl (fun acc p => replaceGlobal p.1 p.2 acc) l

/-- Step 4: `replace(/&[a-zA-Z0-9#]+;/g, '')`.  At a `&` the regex matches
iff a nonempty run of `[a-zA-Z0-9#]` is followed immediately by `;` (the
class excludes `;` and backtracking cannot help), and the whole
`&run;` is removed.  Fuelled scanner, same convention as `replA`. -/
def rmEntA : Nat → List Char → List Char
  | _, [] => []
  | 0, l => l
  | f + 1, c :: t =>
    if c = '&' then
      let run := t.takeWhile entChar
      let rest := t.drop run.length
      if run.isEmpty then c :: rmEntA f t
      else
        match rest with
        | ';' :: rest2 => rmEntA f rest2
        | _ => c :: rmEntA f t
    else c :: rmEntA f t

def rmEntities (l : List Char) : List Char := rmEntA l.length l

/-- Step 5a: `replace(/\s+/g, ' ')` — collapse each maximal whitespace run
to a single space.  Fuelled scanner. -/
def collWsA : Nat → List Char → List Char
  | _, [] => []
  | 0, l => l
  | f + 1, c :: t =>
    if isJsWs c then ' ' :: collWsA f (t.dropWhile isJsWs)
    else c :: collWsA f t

def collWs (l : List Char) : List Char := collWsA l.length l

/-- Step 5b: JS `String.prototype.trim` (strip `\s` from both ends). -/
def jsTrim (l : List Char) : List Char :=
  ((l.dropWhile isJsWs).reverse.dropWhile isJsWs).reverse

/-- Steps 1-5 of `sanitizeWhatsAppMessage` (everything before the empty
check and the length cap): tag removal, stray-angle-bracket removal, entity
decoding, generic entity removal, whitespace collapsing and trimming. -/
def cleanWhatsApp (l : List Char) : List Char :=
  jsTrim (collWs (rmEntities (decodeEntities (rmAngles (rmTags l)))))

/-- `sanitizeWhatsAppMessage` from `src/lib/whatsapp.tsx`.  The source throws
`Error('Message is empty after sanitization')` when the cleaned text is
empty, modelled as `Except.error`; note that a falsy input (`!message`,
i.e. the empty string) returns `''` before any cleaning. -/
def sanitizeWhatsAppMessage (message : String) : Except String String :=
  if message = "" then .ok "" else
  let clean := cleanWhatsApp message.data
  if clean.length = 0 then .error "Message is empty after sanitization"
  else if clean.length > 4096 then .ok (String.mk (clean.take 4093 ++ "...".data))
  else .ok (String.mk clean)

/-- Characters kept by `phoneNumber.replace(/[^\d+]/g, '')`. -/
def keepPhoneChar (c : Char) : Bool := c.isDigit || c = '+'

/-- The `countryCodeMap` keys of `normalizePhoneNumber`, in source
(insertion) order; the mapped value is always `'+' ++ code`. -/
def countryCodes : List (List Char) :=
  ["242", "221", "223", "224", "225", "226", "227", "228", "229", "230",
   "231", "232", "233", "234", "235", "236", "237", "238", "239", "240",
   "241", "243", "244", "245", "246", "247", "248", "249", "250", "251",
   "252", "253", "254", "255", "256", "257", "258", "260", "261", "262",
   "263", "264", "265", "266", "267", "268", "269", "290", "291", "297",
   "298", "299"].map String.data

/-- `normalizePhoneNumber` from `src/lib/whatsapp.tsx`. -/
def normalizePhoneNumber (phoneNumber : String) : String :=
  if phoneNumber = "" then "" else
  let cleaned := phoneNumber.data.filter keepPhoneChar
  if cleaned.head? = some '+' then String.mk cleaned
  else
    match countryCodes.find? (fun code => code.isPrefixOf cleaned) with
    | some code => String.mk ('+' :: code ++ cleaned.drop code.length)
    | none =>
      if cleaned.head? = some '0' then String.mk ('+' :: '2' :: '4' :: '2' :: cleaned.tail)
      else String.mk ('+' :: '2' :: '4' :: '2' :: cleaned)

/-- The downstream validation regex `^\+[1-9]\d{1,14}$` used by
`sendWhatsAppMessages` to filter normalized numbers. -/
def phoneRegexTest (s : String) : Bool :=
  match s.data with
  | '+' :: c :: rest =>
    ('1' ≤ c && c ≤ '9') && rest.all Char.isDigit &&
      (1 ≤ rest.length && rest.length ≤ 14)
  | _ => false

/-- Simple-case lowercase mapping of JS `String.prototype.toLowerCase`,
restricted to the ranges that can occur in the classifier keywords
(ASCII letters and the Latin-1 accented range `À`-`Þ`). -/
def jsToLower (c : Char) : Char :=
  if 'A' ≤ c && c ≤ 'Z' then Char.ofNat (c.toNat + 32)
  else if 0xc0 ≤ c.toNat && c.toNat ≤ 0xde && c.toNat ≠ 0xd7 then Char.ofNat (c.toNat + 32)
  else c

/-- `educationKeywords` of `determineChatbotType`
(`supabase/functions/webhook-handler/index.ts`). -/
def educationKeywords : List String :=
  ["learn", "study", "course", "education", "school", "homework",
   "assignment", "question", "apprendre", "étudier", "cours", "éducation",
   "école", "devoir", "exercice"]

/-- `quizKeywords` of `determineChatbotType`. -/
def quizKeywords : List String :=
  ["quiz", "game", "test", "play", "challenge", "question", "answer",
   "jeu", "défi", "réponse", "questionnaire"]

/-- `determineChatbotType` from
`supabase/functions/webhook-handler/index.ts`: lowercase the message and
match the two keyword lists by substring, education first. -/
def determineChatbotType (message : String) : String :=
  let lowerMessage := message.data.map jsToLower
  if educationKeywords.any (fun kw => jsIncludes kw.data lowerMessage) then "education"
  else if quizKeywords.any (fun kw => jsIncludes kw.data lowerMessage) then "quiz"
  else "client"

/-- JS truthiness of a nullable string column (`null` and `''` are falsy). -/
def truthyS : Option String → Bool
  | none => false
  | some s => s ≠ ""

/-- JS `x || null` on a nullable string. -/
def orNull : Option String → Option String
  | none => none
  | some s => if s = "" then none else some s

/-- A row of the `user_whatsapp_config` table.  `updated_at` is an abstract
monotone timestamp. -/
structure WhatsAppConfigRow where
  user_id : String
  access_token : Option String
  phone_number_id : Option String
  whatsapp_business_account_id : Option String
  is_active : Bool
  updated_at : Nat
deriving DecidableEq

/-- The configuration object returned by `getWhatsAppConfig`. -/
structure WhatsAppConfig where
  accessToken : String
  phoneNumberId : String
  whatsappBusinessAccountId : Option String
  source : String
deriving DecidableEq

/-- PostgREST `maybeSingle()`: zero rows yield `null`, one row yields the
row, more than one row is an error. -/
def maybeSingle {α : Type} (rows : List α) : Except String (Option α) :=
  match rows with
  | [] => .ok none
  | [r] => .ok (some r)
  | _ => .error "multiple rows returned"

/-- `order by updated_at desc limit 1` over the active rows: the row with
the largest `updated_at` (the first such row in table order when tied —
the source query leaves tie order to the database). -/
def mostRecentRow (rows : List WhatsAppConfigRow) : Option WhatsAppConfigRow :=
  rows.foldl
    (fun acc r =>
      match acc with
      | none => some r
      | some a => if r.updated_at > a.updated_at then some r else acc)
    none

def noActiveConfigMsg : String :=
  "No active WhatsApp configuration found. Please configure your WhatsApp API credentials in the settings."

/-- The fallback half of `getWhatsAppConfig` (`src/lib/whatsapp.tsx`
lines 40-60): most recently updated active config from any user, provided
it carries both credentials; otherwise the no-active-configuration error. -/
def fallbackWhatsAppConfig (db : List WhatsAppConfigRow) : Except String WhatsAppConfig :=
  match mostRecentRow (db.filter (fun r => r.is_active)) with
  | some r =>
    if truthyS r.access_token && truthyS r.phone_number_id then
      .ok { accessToken := r.access_token.getD "",
            phoneNumberId := r.phone_number_id.getD "",
            whatsappBusinessAccountId := orNull r.whatsapp_business_account_id,
            source := "fallback_user_config" }
    else .error noActiveConfigMsg
  | none => .error noActiveConfigMsg

/-- `getWhatsAppConfig` from `src/lib/whatsapp.tsx`: user-scoped active
config first (when a user id is given and the scoped `maybeSingle` query
yields exactly one row with both credentials), else the fallback. -/
def getWhatsAppConfig (db : List WhatsAppConfigRow) (userId : Option String) :
    Except String WhatsAppConfig :=
  match userId with
  | some uid =>
    match maybeSingle (db.filter (fun r => r.user_id = uid && r.is_active)) with
    | .ok (some r) =>
      if truthyS r.access_token && truthyS r.phone_number_id then
        .ok { accessToken := r.access_token.getD "",
              phoneNumberId := r.phone_number_id.getD "",
              whatsappBusinessAccountId := orNull r.whatsapp_business_account_id,
              source := "user_config" }
      else fallbackWhatsAppConfig db
    | _ => fallbackWhatsAppConfig db
  | none => fallbackWhatsAppConfig db

/-- A row written to the `message_logs` table by the delivery channel
(`created_at` is abstracted away). -/
structure LogRecord where
  status : String
  phone_number : String
  message_preview : String
  message_id : Option String
  error : Option String
deriving DecidableEq

/-- Outcome of a provider send call that returned an HTTP response:
`ok` is `response.ok`, `errMsg` the provider error message resolved from
the error body (`errorData.error?.message || statusText`), `messageId`
the optional `result.messages?.[0]?.id`. -/
structure ApiResp where
  ok : Bool
  errMsg : String
  messageId : Option String
deriving DecidableEq

/-- A media attachment; an empty `url` models the JS-falsy absent url. -/
structure Media where
  mtype : String
  url : String
deriving DecidableEq

/-- The provider message payload (only the fields the source sets). -/
structure OutPayload where
  toNumber : String -- the `to` field (renamed: `to` is a Lean keyword)
  ptype : String
  textBody : Option String
  mediaLink : Option String
  caption : Option String
deriving DecidableEq

/-- Environment of remote collaborators for the delivery channel:
`urlWellFormed` models `new URL(url)` succeeding, `headOk` the HEAD
reachability probe (`Except.error` = network throw, `.ok b` = response
with `response.ok = b`), `sendApi` the provider POST. -/
structure SendEnv where
  configDb : List WhatsAppConfigRow
  urlWellFormed : String → Bool
  headOk : String → Except String Bool
  sendApi : OutPayload → Except String ApiResp

/-- ASCII uppercase (for `media.type.toUpperCase()`). -/
def jsToUpper (c : Char) : Char :=
  if 'a' ≤ c && c ≤ 'z' then Char.ofNat (c.toNat - 32) else c

def upperStr (s : String) : String := String.mk (s.data.map jsToUpper)

/-- JS `s.substring(0, n)`. -/
def jsSubstring (s : String) (n : Nat) : String := String.mk (s.data.take n)

/-- JS `s.trim()` on `String`. -/
def jsTrimS (s : String) : String := String.mk (jsTrim s.data)

/-- The provider-payload construction shared (nearly verbatim) by
`sendWhatsAppResponse` and the per-message task of
`sendWhatsAppMessages`: media messages require a well-formed URL
(`new URL`) and a passing HEAD probe — any of the three failures throws
an `Invalid media URL` error — and carry the text as a caption when the
trimmed text is truthy; a media entry with a falsy `url`, or no media,
yields a text body (with the media `type` field still used when a media
object is present). -/
def buildPayload (env : SendEnv) (toN text : String) (media : Option Media) :
    Except String OutPayload :=
  match media with
  | some m =>
    if m.url ≠ "" then
      if !env.urlWellFormed m.url then .error "Invalid media URL: invalid URL"
      else
        match env.headOk m.url with
        | .error e => .error ("Invalid media URL: " ++ e)
        | .ok false => .error "Invalid media URL: Media URL not accessible"
        | .ok true =>
          .ok { toNumber := toN, ptype := m.mtype, textBody := none,
                mediaLink := some m.url,
                caption := if text ≠ "" && jsTrimS text ≠ "" then some text else none }
    else
      .ok { toNumber := toN, ptype := m.mtype, textBody := some text,
            mediaLink := none, caption := none }
  | none =>
    .ok { toNumber := toN, ptype := "text", textBody := some text,
          mediaLink := none, caption := none }

/-- `sendWhatsAppResponse` from `src/lib/whatsapp.tsx`: sanitize, resolve
config, validate media, call the provider, and insert a `message_logs`
row with status `sent` on success.  The result pairs the source's
thrown-or-returned outcome with the list of rows inserted into
`message_logs`; the outer `catch` of the source only logs to the console
and rethrows, so it adds nothing to the model. -/
def sendWhatsAppResponse (env : SendEnv) (toNum message : String) (media : Option Media)
    (userId : Option String) : Except String ApiResp × List LogRecord :=
  match sanitizeWhatsAppMessage message with
  | .error e => (.error e, [])
  | .ok sanitizedMessage =>
    match getWhatsAppConfig env.configDb userId with
    | .error e => (.error e, [])
    | .ok _cfg =>
      match buildPayload env toNum sanitizedMessage media with
      | .error e => (.error e, [])
      | .ok payload =>
        match env.sendApi payload with
        | .error e => (.error e, [])
        | .ok resp =>
          if !resp.ok then
            (.error ("Failed to send WhatsApp response: " ++ resp.errMsg), [])
          else
            (.ok resp,
             [{ status := "sent", phone_number := toNum,
                message_preview :=
                  match media with
                  | some m => "[" ++ upperStr m.mtype ++ "] " ++ jsSubstring sanitizedMessage 80
                  | none => jsSubstring sanitizedMessage 100,
                message_id := resp.messageId, error := none }])

/-- One entry of the batch argument of `sendWhatsAppMessages`. -/
structure BatchMsg where
  phoneNumber : String
  message : String
  vars : List (String × String) -- the `variables` field (renamed: reserved in Lean)
  media : Option Media
deriving DecidableEq

/-- A per-message `MessageResult` (`timestamp` abstracted away). -/
structure MessageResult where
  status : String
  phoneNumber : String
  message : String
  messageId : Option String
  error : Option String
deriving DecidableEq

/-- `replaceMessageVariables` from `src/lib/whatsapp.tsx`: for each
variable, a global replace of the literal placeholder
`\x7b\x7b name \x7d\x7d` by the value. -/
def replaceMessageVariables (message : String) (vs : List (String × String)) : String :=
  vs.foldl
    (fun acc v =>
      String.mk (replaceGlobal ("\x7b\x7b".data ++ v.1.data ++ "\x7d\x7d".data) v.2.data acc.data))
    message

/-- The per-message send task of `sendWhatsAppMessages` (its inner
try/catch): validate media, call the provider, insert one `message_logs`
row — status `sent` with the provider id on success, status `error` with
the error text on failure — and return the corresponding
`MessageResult`.  `msg.message` is the already substituted and sanitized
text. -/
def attemptOf (env : SendEnv) (msg : BatchMsg) : Except String ApiResp :=
  match buildPayload env msg.phoneNumber msg.message msg.media with
  | .error e => .error e
  | .ok payload =>
    match env.sendApi payload with
    | .error e => .error e
    | .ok resp => if !resp.ok then .error resp.errMsg else .ok resp

def sendOneOfBatch (env : SendEnv) (msg : BatchMsg) : MessageResult × List LogRecord :=
  match attemptOf env msg with
  | .ok resp =>
    ({ status := "success", phoneNumber := msg.phoneNumber, message := msg.message,
       messageId := resp.messageId, error := none },
     [{ status := "sent", phone_number := msg.phoneNumber,
        message_preview := jsSubstring msg.message 100,
        message_id := resp.messageId, error := none }])
  | .error e =>
    ({ status := "error", phoneNumber := msg.phoneNumber, message := msg.message,
       messageId := none, error := some e },
     [{ status := "error", phone_number := msg.phoneNumber,
        message_preview := jsSubstring msg.message 100,
        message_id := none, error := some e }])

/-- The `MessageResult` produced by the outer catch of
`sendWhatsAppMessages` for one original input message. -/
def batchErrResult (m : BatchMsg) (e : String) : MessageResult :=
  { status := "error", phoneNumber := m.phoneNumber, message := m.message,
    messageId := none, error := some e }

/-- `sendWhatsAppMessages` from `src/lib/whatsapp.tsx`: resolve config,
normalize every number and keep only those matching the validation regex
(invalid entries are dropped with a console warning), substitute
variables and sanitize, then run the per-message send tasks (the
inter-message pacing delay is timing only and is not modelled; the
settled results keep input order).  Any failure before the per-message
tasks — no config, an all-invalid batch, a sanitizer throw — reaches the
outer catch, which returns an error `MessageResult` for every original
input.  The second component collects the `message_logs` rows inserted. -/
def sendWhatsAppMessages (env : SendEnv) (messages : List BatchMsg)
    (userId : Option String) : List MessageResult × List LogRecord :=
  match getWhatsAppConfig env.configDb userId with
  | .error e => (messages.map (fun m => batchErrResult m e), [])
  | .ok _cfg =>
    let validMessages :=
      (messages.map (fun m => { m with phoneNumber := normalizePhoneNumber m.phoneNumber })).filter
        (fun m => phoneRegexTest m.phoneNumber)
    if validMessages.isEmpty then
      (messages.map (fun m =>
        batchErrResult m
          ("No valid phone numbers found. Original numbers: " ++
            String.intercalate ", " (messages.map (fun x => x.phoneNumber)))), [])
    else
      match validMessages.mapM (fun m =>
          (sanitizeWhatsAppMessage (replaceMessageVariables m.message m.vars)).map
            (fun s => { m with message := s })) with
      | .error e => (messages.map (fun m => batchErrResult m e), [])
      | .ok processedMessages =>
        let pairs := processedMessages.map (sendOneOfBatch env)
        (pairs.map Prod.fst, (pairs.map Prod.snd).flatten)

/-- Result of `analyzeStudentMessage` as consumed by
`processCustomerMessage` (only `subject` flows into the saved record; the
numeric scores only feed prompt text). -/
structure Analysis where
  subject : Option String
deriving DecidableEq

/-- A `student_profiles` row as consumed by `processCustomerMessage`. -/
structure Student where
  id : String
  user_id : Option String
deriving DecidableEq

/-- A `customer_conversations` row (timestamps and response time
abstracted away). -/
structure ConvRecord where
  phone_number : String
  content : String
  sender : String
  intent : Option String
deriving DecidableEq

/-- The `Message` shape of `src/lib/education.ts`. -/
structure EduMessage where
  phoneNumber : String
  content : String
  sender : String
  imageUrl : Option String
deriving DecidableEq

/-- Collaborator oracles for `processCustomerMessage`
(`src/lib/education.ts`).  `completion` and `imageCompletion` model
`completion.choices[0]?.message?.content`: `Except.error` is a thrown
LLM call, `.ok none` a missing content, `.ok (some s)` a returned text
(`s = ""` is falsy and triggers the same fallback as a missing one).
`analyzeRes` models `analyzeStudentMessage`, which rethrows its errors;
`imageAnalysis` models `analyzeStudentImage`, which never throws. -/
structure EduEnv where
  subscription : Except String Bool
  studentRes : Except String Student
  profilsUtilisateurs : Option String
  anyGroqConfig : Option String
  groqClient : String → Except String Unit
  analyzeRes : Except String Analysis
  imageAnalysis : Analysis
  completion : Except String (Option String)
  imageCompletion : Except String (Option String)

def emptyCompletionFallback : String :=
  "Je suis désolé, je n\x27ai pas pu générer une réponse appropriée."

def emptyImageFallback : String :=
  "Je suis désolé, je n\x27ai pas pu analyser correctement cette image. Pourriez-vous envoyer une image plus claire ou poser votre question sous forme de texte ?"

def techDifficultiesFallback : String :=
  "Désolé, je rencontre des difficultés techniques. Veuillez réessayer plus tard."

/-- The user-id resolution of `processCustomerMessage`
(`src/lib/education.ts` lines 433-465): the student profile's `user_id`
when truthy, else the `profils_utilisateurs` id, else any
`user_groq_config` user, else the thrown no-user error. -/
def resolveUserId (env : EduEnv) (student : Student) : Except String String :=
  let userId0 := if truthyS student.user_id then student.user_id else env.profilsUtilisateurs
  if truthyS userId0 then .ok (userId0.getD "")
  else
    match env.anyGroqConfig with
    | some u => .ok u
    | none => .error "No user with Groq configuration found"

/-- `completion.choices[0]?.message?.content || fallback`. -/
def respondWith (fallback : String) (content : Option String) : String :=
  match content with
  | some s => if s = "" then fallback else s
  | none => fallback

/-- The completion-to-saved-reply tail shared by the image and text paths
of `processCustomerMessage`: a thrown LLM call propagates (keeping the
already inserted rows); otherwise the falsy-completion fallback is
applied, the bot row is inserted, and the bot message returned. -/
def processTurn (msg : EduMessage) (analysisSubject : Option String)
    (completion : Except String (Option String)) (fallback : String)
    (logs1 : List ConvRecord) : Except String EduMessage × List ConvRecord :=
  match completion with
  | .error e => (.error e, logs1)
  | .ok content =>
    let response := respondWith fallback content
    (.ok { phoneNumber := msg.phoneNumber, content := response,
           sender := "bot", imageUrl := none },
     logs1 ++ [{ phone_number := msg.phoneNumber, content := response,
                 sender := "bot", intent := analysisSubject }])

/-- The body (try block) of `processCustomerMessage`: subscription check,
profile, user-id resolution, Groq client, inbound save, analysis,
completion, outbound save.  Returns the thrown-or-returned outcome plus
the `customer_conversations` rows inserted before the outcome (inserted
rows persist even when a later step throws). -/
def processBody (env : EduEnv) (msg : EduMessage) : Except String EduMessage × List ConvRecord :=
  match env.subscription with
  | .error e => (.error e, [])
  | .ok _hasSubscription =>
    match env.studentRes with
    | .error e => (.error e, [])
    | .ok student =>
      match resolveUserId env student with
      | .error e => (.error e, [])
      | .ok uid =>
        match env.groqClient uid with
        | .error e => (.error e, [])
        | .ok _ =>
          let logs1 : List ConvRecord :=
            [{ phone_number := msg.phoneNumber, content := msg.content,
               sender := msg.sender, intent := none }]
          match msg.imageUrl with
          | some _ =>
            processTurn msg env.imageAnalysis.subject env.imageCompletion
              emptyImageFallback logs1
          | none =>
            match env.analyzeRes with
            | .error e => (.error e, logs1)
            | .ok analysis =>
              processTurn msg analysis.subject env.completion
                emptyCompletionFallback logs1

/-- `processCustomerMessage` from `src/lib/education.ts`: the try body
wrapped in the catch-all that degrades every failure to the fixed
technical-difficulties bot message.  Total by construction — the
Responder never raises. -/
def processCustomerMessage (env : EduEnv) (msg : EduMessage) : EduMessage × List ConvRecord :=
  match processBody env msg with
  | (.ok bot, logs) => (bot, logs)
  | (.error _, logs) =>
    ({ phoneNumber := msg.phoneNumber, content := techDifficultiesFallback,
       sender := "bot", imageUrl := none }, logs)

/-- A `message_logs` row as touched by the status-update handlers. -/
structure MessageLogRow where
  message_id : Option String
  status : String
  updated_at : Nat
deriving DecidableEq

/-- The JSON envelope returned by `processStatusUpdate`. -/
structure StatusResult where
  success : Bool
  error : Option String
  message : Option String
deriving DecidableEq

/-- `processStatusUpdate` from `src/api/whatsapp-webhook.ts`: missing
fields throw into the catch (a failure envelope); otherwise the
`update … eq('message_id', id)` patches every matching row (zero rows is
not an error) and a success envelope is returned.  The store update
itself is modelled as reliable; `now` abstracts `new Date()`. -/
def processStatusUpdate (db : List MessageLogRow) (now : Nat)
    (messageId status : Option String) : StatusResult × List MessageLogRow :=
  if !(truthyS messageId && truthyS status) then
    ({ success := false, error := some "Missing required fields: messageId, status",
       message := none }, db)
  else
    let mid := messageId.getD ""
    let st := status.getD ""
    let db2 := db.map (fun r =>
      if r.message_id = some mid then { r with status := st, updated_at := now } else r)
    ({ success := true, error := none, message := some ("Status updated to " ++ st) }, db2)

/-- An HTTP response envelope (status code + success flag). -/
structure HttpResp where
  status : Nat
  success : Bool
deriving DecidableEq

/-- The `type === 'status_update'` branch of the serve handler in
`src/unnamed/part_002`: patch matching `message_logs` rows and answer
HTTP 200 with a success body (store update modelled as reliable). -/
def statusUpdateBranch (db : List MessageLogRow) (now : Nat)
    (messageId status : String) : HttpResp × List MessageLogRow :=
  let db2 := db.map (fun r =>
    if r.message_id = some messageId then { r with status := status, updated_at := now } else r)
  ({ status := 200, success := true }, db2)

/-- Line-terminator class of the JS regex `.` (which `.` does not match). -/
def isJsLineTerm (c : Char) : Bool :=
  c = '\n' || c = '\r' || c.toNat == 0x2028 || c.toNat == 0x2029

/-- Case-insensitive `chopLead` (for the `gi` script-tag regex). -/
def ciChopLead : List Char → List Char → Option (List Char)
  | [], l => some l
  | _ :: _, [] => none
  | n :: ns, c :: t => if jsToLower n = jsToLower c then ciChopLead ns t else none

/-- Scan for the lazy `.*?<\/script>` tail: the earliest case-insensitive
close tag not separated from the start by a line terminator. -/
def findScriptClose : Nat → List Char → Option (List Char)
  | _, [] => none
  | 0, _ => none
  | f + 1, l@(c :: t) =>
    match ciChopLead "</script>".data l with
    | some rest => some rest
    | none => if isJsLineTerm c then none else findScriptClose f t

/-- Fuelled scanner for `replace(/<script[^>]*>.*?<\/script>/gi, '')`. -/
def scriptStripA : Nat → List Char → List Char
  | _, [] => []
  | 0, l => l
  | f + 1, c :: t =>
    match ciChopLead "<script".data (c :: t) with
    | some rest1 =>
      let attrs := rest1.takeWhile (fun x => x ≠ '>')
      match rest1.drop attrs.length with
      | '>' :: body =>
        match findScriptClose body.length body with
        | some rest2 => scriptStripA f rest2
        | none => c :: scriptStripA f t
      | _ => c :: scriptStripA f t
    | none => c :: scriptStripA f t

def scriptStrip (l : List Char) : List Char := scriptStripA l.length l

/-- The response post-processing of the api-chatbot serve handler
(`supabase/functions/api-chatbot/index.ts` lines 279-289): truncate
responses longer than 4000 characters to the first 3997 plus `...`, then
strip script blocks and markup tags and trim. -/
def apiChatbotPostProcess (response : String) : String :=
  let r1 :=
    if response.length > 4000 then String.mk (response.data.take 3997 ++ "...".data)
    else response
  String.mk (jsTrim (rmTags (scriptStrip r1.data)))

/-! Concrete fixtures used by the witnesses and counterexamples below. -/

/-- An active config row with both credentials. -/
def cfgRowMain : WhatsAppConfigRow :=
  { user_id := "u1", access_token := some "tokA", phone_number_id := some "pidA",
    whatsapp_business_account_id := some "", is_active := true, updated_at := 10 }

/-- An active config row missing its access token, most recently updated. -/
def cfgRowNoTok : WhatsAppConfigRow :=
  { user_id := "u2", access_token := none, phone_number_id := some "pidB",
    whatsapp_business_account_id := none, is_active := true, updated_at := 20 }

/-- An active config row with both credentials, older than `cfgRowNoTok`. -/
def cfgRowCred : WhatsAppConfigRow :=
  { user_id := "u3", access_token := some "tokB", phone_number_id := some "pidB",
    whatsapp_business_account_id := some "w", is_active := true, updated_at := 5 }

/-- A delivery environment whose provider and probe always succeed. -/
def envAllOk : SendEnv :=
  { configDb := [cfgRowMain], urlWellFormed := fun _ => true,
    headOk := fun _ => .ok true,
    sendApi := fun _ => .ok { ok := true, errMsg := "", messageId := some "wamid.1" } }

/-- A delivery environment whose HEAD reachability probe reports failure. -/
def envHeadFail : SendEnv :=
  { configDb := [cfgRowMain], urlWellFormed := fun _ => true,
    headOk := fun _ => .ok false,
    sendApi := fun _ => .ok { ok := true, errMsg := "", messageId := some "wamid.1" } }

/-- The 3-message batch of the spec scenario: entry 2 has an invalid
number (`+0999` is kept as-is by normalization and fails `[1-9]`). -/
def batch3 : List BatchMsg :=
  [{ phoneNumber := "+14155550001", message := "hello one", vars := [], media := none },
   { phoneNumber := "+0999", message := "hello two", vars := [], media := none },
   { phoneNumber := "+14155550003", message := "hello three", vars := [], media := none }]

/-- A responder environment where everything up to the LLM call succeeds
and the main completion outcome is the parameter. -/
def eduEnvWith (c : Except String (Option String)) : EduEnv :=
  { subscription := .ok true, studentRes := .ok { id := "s1", user_id := some "u1" },
    profilsUtilisateurs := none, anyGroqConfig := none,
    groqClient := fun _ => .ok (), analyzeRes := .ok { subject := some "math" },
    imageAnalysis := { subject := none }, completion := c,
    imageCompletion := .ok (some "img") }

/-- The inbound text message of the responder scenarios. -/
def eduMsgW : EduMessage :=
  { phoneNumber := "+242060000001", content := "bonjour", sender := "user", imageUrl := none }

/-- Two delivery-log rows, neither with provider id `zz`. -/
def dbLogsW : List MessageLogRow :=
  [{ message_id := some "m1", status := "sent", updated_at := 0 },
   { message_id := some "m2", status := "sent", updated_at := 0 }]

/-! Helper lemmas: each cleaning pass is the identity on text that
contains none of the characters it reacts to. -/

theorem chopLead_some {n l r : List Char} (h : chopLead n l = some r) : l = n ++ r := by
  induction n generalizing l with
  | nil => simp [chopLead] at h; simp [h]
  | cons x xs ih =>
    cases l with
    | nil => simp [chopLead] at h
    | cons c t =>
      by_cases hx : x = c
      · subst hx
        simp [chopLead] at h
        simpa using ih h
      · simp [chopLead, hx] at h

theorem rmTagsAux_none_id {l : List Char} (h : ∀ c ∈ l, c ≠ '<') :
    rmTagsAux none l = l := by
  induction l with
  | nil => rfl
  | cons c t ih =>
    have hc : c ≠ '<' := h c (List.mem_cons_self c t)
    simp only [rmTagsAux, if_neg hc]
    rw [ih (fun x hx => h x (List.mem_cons_of_mem c hx))]

theorem rmTags_id {l : List Char} (h : ∀ c ∈ l, c ≠ '<') : rmTags l = l :=
  rmTagsAux_none_id h

theorem rmAngles_id {l : List Char} (h : ∀ c ∈ l, c ≠ '<' ∧ c ≠ '>') :
    rmAngles l = l := by
  refine List.filter_eq_self.mpr (fun c hc => ?_)
  have := h c hc
  simp [this.1, this.2]

theorem replA_id {needle repl : List Char} {ch : Char} (hch : ch ∈ needle) :
    ∀ f l, ch ∉ l → replA needle repl f l = l := by
  intro f
  induction f with
  | zero => intro l _; cases l <;> rfl
  | succ f ih =>
    intro l hl
    cases l with
    | nil => rfl
    | cons c t =>
      cases hcl : chopLead needle (c :: t) with
      | some rest =>
        exact absurd (chopLead_some hcl ▸ List.mem_append_left rest hch) hl
      | none =>
        simp only [replA, hcl]
        rw [ih t (fun hm => hl (List.mem_cons_of_mem c hm))]

theorem replaceGlobal_id {needle repl l : List Char} {ch : Char}
    (hch : ch ∈ needle) (hl : ch ∉ l) : replaceGlobal needle repl l = l :=
  replA_id hch l.length l hl

theorem decodeEntities_id {l : List Char} (h : '&' ∉ l) : decodeEntities l = l := by
  simp only [decodeEntities, htmlEntities, List.foldl]
  rw [replaceGlobal_id (by decide) h, replaceGlobal_id (by decide) h,
    replaceGlobal_id (by decide) h, replaceGlobal_id (by decide) h,
    replaceGlobal_id (by decide) h, replaceGlobal_id (by decide) h,
    replaceGlobal_id (by decide) h, replaceGlobal_id (by decide) h,
    replaceGlobal_id (by decide) h]

theorem rmEntA_id : ∀ f (l : List Char), '&' ∉ l → rmEntA f l = l := by
  intro f
  induction f with
  | zero => intro l _; cases l <;> rfl
  | succ f ih =>
    intro l hl
    cases l with
    | nil => rfl
    | cons c t =>
      have hc : ¬ c = '&' := fun hc => hl (hc ▸ List.mem_cons_self c t)
      simp only [rmEntA, if_neg hc]
      rw [ih t (fun hm => hl (List.mem_cons_of_mem c hm))]

theorem rmEntities_id {l : List Char} (h : '&' ∉ l) : rmEntities l = l :=
  rmEntA_id l.length l h

theorem collWsA_id : ∀ f (l : List Char), (∀ c ∈ l, isJsWs c = false) → collWsA f l = l := by
  intro f
  induction f with
  | zero => intro l _; cases l <;> rfl
  | succ f ih =>
    intro l hl
    cases l with
    | nil => rfl
    | cons c t =>
      have hc : ¬ isJsWs c = true := by
        simp [hl c (List.mem_cons_self c t)]
      simp only [collWsA, if_neg hc]
      rw [ih t (fun x hx => hl x (List.mem_cons_of_mem c hx))]

theorem collWs_id {l : List Char} (h : ∀ c ∈ l, isJsWs c = false) : collWs l = l :=
  collWsA_id l.length l h

theorem dropWhile_id {p : Char → Bool} {l : List Char}
    (h : ∀ c ∈ l, p c = false) : l.dropWhile p = l := by
  cases l with
  | nil => rfl
  | cons c t => simp [List.dropWhile, h c (List.mem_cons_self c t)]

theorem jsTrim_id {l : List Char} (h : ∀ c ∈ l, isJsWs c = false) : jsTrim l = l := by
  unfold jsTrim
  rw [dropWhile_id h, dropWhile_id (fun c hc => h c (List.mem_reverse.mp hc)),
    List.reverse_reverse]

theorem cleanWhatsApp_id {l : List Char}
    (h : ∀ c ∈ l, c ≠ '<' ∧ c ≠ '>' ∧ c ≠ '&' ∧ isJsWs c = false) :
    cleanWhatsApp l = l := by
  unfold cleanWhatsApp
  rw [rmTags_id (fun c hc => (h c hc).1), rmAngles_id (fun c hc => ⟨(h c hc).1, (h c hc).2.1⟩),
    decodeEntities_id (fun hm => (h _ hm).2.2.1 rfl),
    rmEntities_id (fun hm => (h _ hm).2.2.1 rfl),
    collWs_id (fun c hc => (h c hc).2.2.2), jsTrim_id (fun c hc => (h c hc).2.2.2)]

theorem countryCodes_digits : ∀ code ∈ countryCodes, ∀ c ∈ code, keepPhoneChar c = true := by
  decide

/-- Every character of a normalized number survives the `[^\d+]` filter. -/
theorem normalizePhoneNumber_chars (s : String) :
    ∀ c ∈ (normalizePhoneNumber s).data, keepPhoneChar c = true := by
  by_cases hs : s = ""
  · subst hs; intro c hc; simp [normalizePhoneNumber] at hc
  · intro c hc
    simp only [normalizePhoneNumber, if_neg hs] at hc
    have hmemf : ∀ x ∈ s.data.filter keepPhoneChar, keepPhoneChar x = true :=
      fun x hx => (List.mem_filter.mp hx).2
    by_cases hplus : (s.data.filter keepPhoneChar).head? = some '+'
    · rw [if_pos hplus] at hc
      exact hmemf c hc
    · rw [if_neg hplus] at hc
      cases hfind : (countryCodes.find?
          (fun code => code.isPrefixOf (s.data.filter keepPhoneChar))) with
      | some code =>
        rw [hfind] at hc
        rcases List.mem_cons.mp hc with hc1 | hc2
        · subst hc1; decide
        · rcases List.mem_append.mp hc2 with hcode | hdrop
          · exact countryCodes_digits code (List.mem_of_find?_eq_some hfind) c hcode
          · exact hmemf c (List.mem_of_mem_drop hdrop)
      | none =>
        rw [hfind] at hc
        by_cases h0 : (s.data.filter keepPhoneChar).head? = some '0'
        · rw [if_pos h0] at hc
          rcases List.mem_cons.mp hc with hc1 | hc2
          · subst hc1; decide
          · rcases List.mem_cons.mp hc2 with hc1 | hc2
            · subst hc1; decide
            · rcases List.mem_cons.mp hc2 with hc1 | hc2
              · subst hc1; decide
              · rcases List.mem_cons.mp hc2 with hc1 | hc2
                · subst hc1; decide
                · exact hmemf c (List.mem_of_mem_tail hc2)
        · rw [if_neg h0] at hc
          rcases List.mem_cons.mp hc with hc1 | hc2
          · subst hc1; decide
          · rcases List.mem_cons.mp hc2 with hc1 | hc2
            · subst hc1; decide
            · rcases List.mem_cons.mp hc2 with hc1 | hc2
              · subst hc1; decide
              · rcases List.mem_cons.mp hc2 with hc1 | hc2
                · subst hc1; decide
                · exact hmemf c hc2

/-- A normalized number is empty or starts with `+`. -/
theorem normalizePhoneNumber_shape (s : String) :
    normalizePhoneNumber s = "" ∨ (normalizePhoneNumber s).data.head? = some '+' := by
  by_cases hs : s = ""
  · subst hs; left; rfl
  · right
    simp only [normalizePhoneNumber, if_neg hs]
    by_cases hplus : (s.data.filter keepPhoneChar).head? = some '+'
    · rw [if_pos hplus]; exact hplus
    · rw [if_neg hplus]
      cases hfind : (countryCodes.find?
          (fun code => code.isPrefixOf (s.data.filter keepPhoneChar))) with
      | some code => rfl
      | none =>
        by_cases h0 : (s.data.filter keepPhoneChar).head? = some '0'
        · rw [if_pos h0]; rfl
        · rw [if_neg h0]; rfl

/-- An already canonical input (starts with `+`, all characters kept by the
filter) is returned unchanged. -/
theorem normalizePhoneNumber_fixed (t : String) (hplus : t.data.head? = some '+')
    (hk : ∀ c ∈ t.data, keepPhoneChar c = true) : normalizePhoneNumber t = t := by
  have hne : t ≠ "" := by
    intro h; subst h; simp at hplus
  have hf : t.data.filter keepPhoneChar = t.data := List.filter_eq_self.mpr hk
  simp only [normalizePhoneNumber, if_neg hne, hf, if_pos hplus]

/-- C10: the phone number normalizer is idempotent; every output is the
empty string or starts with `+`, and a cleaned input starting with `+` is
returned unchanged (the latter two facts drive the former). -/
theorem normalizePhoneNumber_idem (s : String) :
    normalizePhoneNumber (normalizePhoneNumber s) = normalizePhoneNumber s ∧
    (normalizePhoneNumber s = "" ∨ (normalizePhoneNumber s).data.head? = some '+') := by
  refine ⟨?_, normalizePhoneNumber_shape s⟩
  cases normalizePhoneNumber_shape s with
  | inl h => rw [h]; rfl
  | inr h => exact normalizePhoneNumber_fixed _ h (normalizePhoneNumber_chars s)

/-- C2: when the cleaned text exceeds 4096 characters, the sanitizer
returns exactly its first 4093 characters plus the three-dot marker —
4096 characters ending in the marker; cleaned text of at most 4096
characters is returned untruncated. -/
theorem sanitizeWhatsAppMessage_truncation (s : String) (hne : s ≠ "") :
    ((cleanWhatsApp s.data).length > 4096 →
      sanitizeWhatsAppMessage s =
        .ok (String.mk ((cleanWhatsApp s.data).take 4093 ++ "...".data)) ∧
      ∀ r, sanitizeWhatsAppMessage s = .ok r →
        r.length = 4096 ∧ List.IsSuffix "...".data r.data) ∧
    ((cleanWhatsApp s.data).length ≤ 4096 → cleanWhatsApp s.data ≠ [] →
      sanitizeWhatsAppMessage s = .ok (String.mk (cleanWhatsApp s.data))) := by
  constructor
  · intro hgt
    have h0 : ¬ (cleanWhatsApp s.data).length = 0 := by omega
    have heq : sanitizeWhatsAppMessage s =
        .ok (String.mk ((cleanWhatsApp s.data).take 4093 ++ "...".data)) := by
      simp only [sanitizeWhatsAppMessage, if_neg hne, if_neg h0, if_pos hgt]
    refine ⟨heq, fun r hr => ?_⟩
    rw [heq] at hr
    have hr' : String.mk ((cleanWhatsApp s.data).take 4093 ++ "...".data) = r :=
      Except.ok.inj hr
    subst hr'
    constructor
    · show ((cleanWhatsApp s.data).take 4093 ++ "...".data).length = 4096
      rw [List.length_append, List.length_take]
      have hm : min 4093 (cleanWhatsApp s.data).length = 4093 := by omega
      rw [hm]
      decide
    · exact ⟨(cleanWhatsApp s.data).take 4093, rfl⟩
  · intro hle hnz
    have h0 : ¬ (cleanWhatsApp s.data).length = 0 := by
      simpa [List.length_eq_zero] using hnz
    have hgt : ¬ (cleanWhatsApp s.data).length > 4096 := by omega
    simp only [sanitizeWhatsAppMessage, if_neg hne, if_neg h0, if_neg hgt]

/-- Witness for C2: 5000 plain characters sanitize to exactly 4096
characters — the first 4093 plus the marker. -/
theorem sanitizeWhatsAppMessage_truncation_witness :
    sanitizeWhatsAppMessage (String.mk (List.replicate 5000 'a')) =
      .ok (String.mk (List.replicate 4093 'a' ++ "...".data)) ∧
    (String.mk (List.replicate 4093 'a' ++ "...".data)).length = 4096 := by
  have hdata : (String.mk (List.replicate 5000 'a')).data = List.replicate 5000 'a' := rfl
  have hclean : cleanWhatsApp (String.mk (List.replicate 5000 'a')).data
      = List.replicate 5000 'a' := by
    rw [hdata]
    exact cleanWhatsApp_id (fun c hc => by
      have h := List.eq_of_mem_replicate hc
      subst h; decide)
  have hne : String.mk (List.replicate 5000 'a') ≠ "" := by
    intro h
    have h2 : (List.replicate 5000 'a' : List Char) = [] := congrArg String.data h
    have h3 := congrArg List.length h2
    rw [List.length_replicate, List.length_nil] at h3
    omega
  have hgt : (cleanWhatsApp (String.mk (List.replicate 5000 'a')).data).length > 4096 := by
    rw [hclean, List.length_replicate]
    omega
  have h := ((sanitizeWhatsAppMessage_truncation _ hne).1 hgt).1
  constructor
  · rw [h, hclean, List.take_replicate]
    have hm : (4093 : Nat) ⊓ 5000 = 4093 := by norm_num
    rw [hm]
  · show (List.replicate 4093 'a' ++ "...".data).length = 4096
    rw [List.length_append, List.length_replicate]
    decide

/-- Counterexample to C3: the sanitizer does not raise on the empty
string; the falsy-input guard returns the empty string instead. -/
theorem sanitizeWhatsAppMessage_empty_ok :
    sanitizeWhatsAppMessage "" = .ok "" ∧ ∀ e, sanitizeWhatsAppMessage "" ≠ .error e := by
  refine ⟨rfl, fun e h => ?_⟩
  simp [sanitizeWhatsAppMessage] at h

/-- C3 (amended): on a nonempty input the sanitizer raises exactly when
cleaning yields the empty string, and every normal result on a nonempty
input is nonempty; the empty input returns the empty string untouched. -/
theorem sanitizeWhatsAppMessage_error_iff (s : String) (hne : s ≠ "") :
    ((∃ e, sanitizeWhatsAppMessage s = .error e) ↔ cleanWhatsApp s.data = []) ∧
    (∀ r, sanitizeWhatsAppMessage s = .ok r → r ≠ "") := by
  by_cases h0 : (cleanWhatsApp s.data).length = 0
  · have hnil : cleanWhatsApp s.data = [] := List.length_eq_zero.mp h0
    constructor
    · refine ⟨fun _ => hnil, fun _ => ⟨"Message is empty after sanitization", ?_⟩⟩
      simp only [sanitizeWhatsAppMessage, if_neg hne, if_pos h0]
    · intro r hr
      simp only [sanitizeWhatsAppMessage, if_neg hne, if_pos h0] at hr
      exact Except.noConfusion hr
  · constructor
    · constructor
      · rintro ⟨e, he⟩
        by_cases hgt : (cleanWhatsApp s.data).length > 4096
        · simp only [sanitizeWhatsAppMessage, if_neg hne, if_neg h0, if_pos hgt] at he
          exact Except.noConfusion he
        · simp only [sanitizeWhatsAppMessage, if_neg hne, if_neg h0, if_neg hgt] at he
          exact Except.noConfusion he
      · intro hnil
        exact absurd (by rw [hnil] : (cleanWhatsApp s.data).length = [].length) h0
    · intro r hr hr0
      subst hr0
      by_cases hgt : (cleanWhatsApp s.data).length > 4096
      · simp only [sanitizeWhatsAppMessage, if_neg hne, if_neg h0, if_pos hgt] at hr
        have hd := congrArg String.data (Except.ok.inj hr)
        rw [show ∀ l : List Char, (String.mk l).data = l from fun _ => rfl] at hd
        have h3 := congrArg List.length hd
        rw [List.length_append, List.length_take] at h3
        have hdots : "...".data.length = 3 := rfl
        have hnil : ("" : String).data.length = 0 := rfl
        rw [hdots, hnil] at h3
        omega
      · simp only [sanitizeWhatsAppMessage, if_neg hne, if_neg h0, if_neg hgt] at hr
        have hd := congrArg String.data (Except.ok.inj hr)
        rw [show ∀ l : List Char, (String.mk l).data = l from fun _ => rfl] at hd
        have h3 := congrArg List.length hd
        have hnil : ("" : String).data.length = 0 := rfl
        rw [hnil] at h3
        omega

/-- Witness for the amended C3: a nonempty input that cleans to nothing
raises, and a plain nonempty input yields a nonempty result. -/
theorem sanitizeWhatsAppMessage_error_iff_witness :
    (∃ e, sanitizeWhatsAppMessage "<b></b>" = .error e) ∧
    (∀ r, sanitizeWhatsAppMessage "hi" = .ok r → r ≠ "") :=
  ⟨(sanitizeWhatsAppMessage_error_iff "<b></b>" (by decide)).1.mpr (by decide),
   (sanitizeWhatsAppMessage_error_iff "hi" (by decide)).2⟩

/-- C4: the intent classifier is a pure function of the lowercased text:
education wins whenever any education keyword occurs as a substring (even
if a quiz keyword also occurs), quiz comes second, client is the default
when no keyword from either list occurs. -/
theorem determineChatbotType_order (message : String) :
    ((∃ kw ∈ educationKeywords, jsIncludes kw.data (message.data.map jsToLower) = true) →
      determineChatbotType message = "education") ∧
    ((∀ kw ∈ educationKeywords, jsIncludes kw.data (message.data.map jsToLower) = false) →
      (∃ kw ∈ quizKeywords, jsIncludes kw.data (message.data.map jsToLower) = true) →
      determineChatbotType message = "quiz") ∧
    ((∀ kw ∈ educationKeywords, jsIncludes kw.data (message.data.map jsToLower) = false) →
      (∀ kw ∈ quizKeywords, jsIncludes kw.data (message.data.map jsToLower) = false) →
      determineChatbotType message = "client") := by
  refine ⟨fun h => ?_, fun hne h => ?_, fun hne hnq => ?_⟩
  · have ha : educationKeywords.any
        (fun kw => jsIncludes kw.data (message.data.map jsToLower)) = true := by
      obtain ⟨kw, hm, hi⟩ := h
      exact List.any_eq_true.mpr ⟨kw, hm, hi⟩
    simp only [determineChatbotType, ha, if_true]
  · have ha : educationKeywords.any
        (fun kw => jsIncludes kw.data (message.data.map jsToLower)) = false := by
      rw [List.any_eq_false]
      intro kw hm
      simp [hne kw hm]
    have hq : quizKeywords.any
        (fun kw => jsIncludes kw.data (message.data.map jsToLower)) = true := by
      obtain ⟨kw, hm, hi⟩ := h
      exact List.any_eq_true.mpr ⟨kw, hm, hi⟩
    simp only [determineChatbotType, ha, hq, if_true, if_false, Bool.false_eq_true]
  · have ha : educationKeywords.any
        (fun kw => jsIncludes kw.data (message.data.map jsToLower)) = false := by
      rw [List.any_eq_false]
      intro kw hm
      simp [hne kw hm]
    have hq : quizKeywords.any
        (fun kw => jsIncludes kw.data (message.data.map jsToLower)) = false := by
      rw [List.any_eq_false]
      intro kw hm
      simp [hnq kw hm]
    simp only [determineChatbotType, ha, hq, if_false, Bool.false_eq_true]

/-- Witness for C4: a tie resolves to education by evaluation order, and a
keyword-free text falls through to client. -/
theorem determineChatbotType_order_witness :
    determineChatbotType "quiz about what I learn" = "education" ∧
    determineChatbotType "my bill is wrong" = "client" :=
  ⟨(determineChatbotType_order "quiz about what I learn").1
      ⟨"learn", by decide, by decide⟩,
   (determineChatbotType_order "my bill is wrong").2.2 (by decide) (by decide)⟩

/-- C8: a status update whose provider message id matches no stored
delivery record answers with a success envelope (HTTP 200 in the serve
handler) and leaves every stored record unchanged. -/
theorem statusUpdate_unknown_id_noop (db : List MessageLogRow) (now : Nat) (mid st : String)
    (hmid : mid ≠ "") (hst : st ≠ "")
    (hunknown : ∀ r ∈ db, r.message_id ≠ some mid) :
    (processStatusUpdate db now (some mid) (some st)).1.success = true ∧
    (processStatusUpdate db now (some mid) (some st)).2 = db ∧
    (statusUpdateBranch db now mid st).1 = { status := 200, success := true } ∧
    (statusUpdateBranch db now mid st).2 = db := by
  have htr : truthyS (some mid) = true := by simp [truthyS, hmid]
  have hts : truthyS (some st) = true := by simp [truthyS, hst]
  have hmap : ∀ s' (n : Nat), db.map (fun r =>
      if r.message_id = some mid then { r with status := s', updated_at := n } else r) = db := by
    intro s' n
    have : db.map (fun r =>
        if r.message_id = some mid then { r with status := s', updated_at := n } else r)
        = db.map id := by
      refine List.map_congr_left (fun r hr => ?_)
      rw [if_neg (hunknown r hr)]
      rfl
    rw [this, List.map_id]
  refine ⟨?_, ?_, rfl, hmap st now⟩
  · simp only [processStatusUpdate, htr, hts, Bool.and_self, Bool.not_true,
      Bool.false_eq_true, if_false]
  · simp only [processStatusUpdate, htr, hts, Bool.and_self, Bool.not_true,
      Bool.false_eq_true, if_false]
    exact hmap st now

/-- Witness for C8: an update for unknown id `zz` succeeds and both
stored rows keep their status. -/
theorem statusUpdate_unknown_id_noop_witness :
    (processStatusUpdate dbLogsW 9 (some "zz") (some "delivered")).1.success = true ∧
    (processStatusUpdate dbLogsW 9 (some "zz") (some "delivered")).2 = dbLogsW := by
  have h := statusUpdate_unknown_id_noop dbLogsW 9 "zz" "delivered"
    (by decide) (by decide) (by decide)
  exact ⟨h.1, h.2.1⟩

theorem mostRecentRow_mem_aux (rows : List WhatsAppConfigRow) :
    ∀ (acc : Option WhatsAppConfigRow) (r : WhatsAppConfigRow),
      rows.foldl
        (fun acc x =>
          match acc with
          | none => some x
          | some a => if x.updated_at > a.updated_at then some x else acc)
        acc = some r →
      acc = some r ∨ r ∈ rows := by
  induction rows with
  | nil => intro acc r h; exact Or.inl h
  | cons x xs ih =>
    intro acc r h
    rcases ih _ r h with hacc | hmem
    · cases acc with
      | none =>
        simp only at hacc
        injection hacc with hx
        subst hx
        exact Or.inr (List.mem_cons_self x xs)
      | some a =>
        simp only at hacc
        by_cases hgt : x.updated_at > a.updated_at
        · rw [if_pos hgt] at hacc
          injection hacc with hx
          subst hx
          exact Or.inr (List.mem_cons_self x xs)
        · rw [if_neg hgt] at hacc
          exact Or.inl hacc
    · exact Or.inr (List.mem_cons_of_mem x hmem)

theorem mostRecentRow_mem {rows : List WhatsAppConfigRow} {r : WhatsAppConfigRow}
    (h : mostRecentRow rows = some r) : r ∈ rows := by
  rcases mostRecentRow_mem_aux rows none r h with hacc | hmem
  · exact Option.noConfusion hacc
  · exact hmem

theorem truthyS_some {o : Option String} (h : truthyS o = true) :
    o = some (o.getD "") ∧ o.getD "" ≠ "" := by
  cases o with
  | none => simp [truthyS] at h
  | some s =>
    simp only [truthyS, ne_eq, decide_eq_true_eq] at h
    exact ⟨rfl, h⟩

theorem fallbackWhatsAppConfig_eq_none {db : List WhatsAppConfigRow}
    (hm : mostRecentRow (db.filter (fun r => r.is_active)) = none) :
    fallbackWhatsAppConfig db = .error noActiveConfigMsg := by
  rw [fallbackWhatsAppConfig, hm]

theorem fallbackWhatsAppConfig_eq_some {db : List WhatsAppConfigRow} {r : WhatsAppConfigRow}
    (hm : mostRecentRow (db.filter (fun x => x.is_active)) = some r) :
    fallbackWhatsAppConfig db =
      if truthyS r.access_token && truthyS r.phone_number_id then
        .ok { accessToken := r.access_token.getD "",
              phoneNumberId := r.phone_number_id.getD "",
              whatsappBusinessAccountId := orNull r.whatsapp_business_account_id,
              source := "fallback_user_config" }
      else .error noActiveConfigMsg := by
  rw [fallbackWhatsAppConfig, hm]

theorem getWhatsAppConfig_user_eq_some {db : List WhatsAppConfigRow} {u : String}
    {r : WhatsAppConfigRow}
    (hms : maybeSingle (db.filter (fun x => x.user_id = u && x.is_active)) = .ok (some r)) :
    getWhatsAppConfig db (some u) =
      if truthyS r.access_token && truthyS r.phone_number_id then
        .ok { accessToken := r.access_token.getD "",
              phoneNumberId := r.phone_number_id.getD "",
              whatsappBusinessAccountId := orNull r.whatsapp_business_account_id,
              source := "user_config" }
      else fallbackWhatsAppConfig db := by
  rw [getWhatsAppConfig, hms]

theorem fallbackWhatsAppConfig_ok_inv {db : List WhatsAppConfigRow} {c : WhatsAppConfig}
    (h : fallbackWhatsAppConfig db = .ok c) :
    ∃ r ∈ db, r.is_active = true ∧ r.access_token = some c.accessToken ∧ c.accessToken ≠ "" ∧
      r.phone_number_id = some c.phoneNumberId ∧ c.phoneNumberId ≠ "" := by
  cases hm : mostRecentRow (db.filter (fun r => r.is_active)) with
  | none =>
    rw [fallbackWhatsAppConfig_eq_none hm] at h
    exact Except.noConfusion h
  | some r =>
    rw [fallbackWhatsAppConfig_eq_some hm] at h
    by_cases hcred : truthyS r.access_token && truthyS r.phone_number_id
    · rw [if_pos hcred] at h
      have hc := Except.ok.inj h
      have hmem := List.mem_filter.mp (mostRecentRow_mem hm)
      have htok := truthyS_some (Bool.and_elim_left hcred)
      have hpid := truthyS_some (Bool.and_elim_right hcred)
      refine ⟨r, hmem.1, by simpa using hmem.2, ?_, ?_, ?_, ?_⟩
      · rw [← hc]; exact htok.1
      · rw [← hc]; exact htok.2
      · rw [← hc]; exact hpid.1
      · rw [← hc]; exact hpid.2
    · rw [if_neg hcred] at h
      exact Except.noConfusion h

/-- Counterexample to C9: with a credential-less config as the most
recently updated active row and an older active row that has full
credentials, the claimed precedence says the most recent active config is
returned as the fallback, but the source throws the
no-active-configuration error instead. -/
theorem getWhatsAppConfig_fallback_counterexample :
    mostRecentRow ([cfgRowNoTok, cfgRowCred].filter (fun r => r.is_active)) = some cfgRowNoTok ∧
    cfgRowNoTok.is_active = true ∧
    getWhatsAppConfig [cfgRowNoTok, cfgRowCred] none = .error noActiveConfigMsg := by
  refine ⟨by decide, rfl, ?_⟩
  rfl

/-- C9 (amended): the resolution returns (1) the user-scoped config when
the user id is given and exactly one active row is scoped to it carrying
both credentials; (2) for the fallback, the most recently updated active
row, but only when that row carries both credentials; (3) the
no-active-configuration error when there is no active row; and (4) a
returned config always comes from an active row with nonempty
credentials. -/
theorem getWhatsAppConfig_precedence (db : List WhatsAppConfigRow) :
    (∀ uid r, db.filter (fun x => x.user_id = uid && x.is_active) = [r] →
      truthyS r.access_token = true → truthyS r.phone_number_id = true →
      getWhatsAppConfig db (some uid) = .ok
        { accessToken := r.access_token.getD "",
          phoneNumberId := r.phone_number_id.getD "",
          whatsappBusinessAccountId := orNull r.whatsapp_business_account_id,
          source := "user_config" }) ∧
    (∀ r, mostRecentRow (db.filter (fun x => x.is_active)) = some r →
      truthyS r.access_token = true → truthyS r.phone_number_id = true →
      getWhatsAppConfig db none = .ok
        { accessToken := r.access_token.getD "",
          phoneNumberId := r.phone_number_id.getD "",
          whatsappBusinessAccountId := orNull r.whatsapp_business_account_id,
          source := "fallback_user_config" }) ∧
    (mostRecentRow (db.filter (fun x => x.is_active)) = none →
      getWhatsAppConfig db none = .error noActiveConfigMsg) ∧
    (∀ uid c, getWhatsAppConfig db uid = .ok c →
      ∃ r ∈ db, r.is_active = true ∧ r.access_token = some c.accessToken ∧
        c.accessToken ≠ "" ∧ r.phone_number_id = some c.phoneNumberId ∧
        c.phoneNumberId ≠ "") := by
  refine ⟨?_, ?_, ?_, ?_⟩
  · intro uid r hfilter htok hpid
    rw [getWhatsAppConfig_user_eq_some (by rw [hfilter]; rfl),
      if_pos (by rw [htok, hpid]; rfl)]
  · intro r hm htok hpid
    show fallbackWhatsAppConfig db = _
    rw [fallbackWhatsAppConfig_eq_some hm, if_pos (by rw [htok, hpid]; rfl)]
  · intro hm
    show fallbackWhatsAppConfig db = _
    exact fallbackWhatsAppConfig_eq_none hm
  · intro uid c h
    cases uid with
    | none => exact fallbackWhatsAppConfig_ok_inv h
    | some u =>
      cases hms : maybeSingle (db.filter (fun x => x.user_id = u && x.is_active)) with
      | error e =>
        rw [getWhatsAppConfig, hms] at h
        exact fallbackWhatsAppConfig_ok_inv h
      | ok o =>
        cases o with
        | none =>
          rw [getWhatsAppConfig, hms] at h
          exact fallbackWhatsAppConfig_ok_inv h
        | some r =>
          rw [getWhatsAppConfig_user_eq_some hms] at h
          by_cases hcred : truthyS r.access_token && truthyS r.phone_number_id
          · rw [if_pos hcred] at h
            have hc := Except.ok.inj h
            have hrmem : r ∈ db.filter (fun x => x.user_id = u && x.is_active) := by
              rcases hfe : db.filter (fun x => x.user_id = u && x.is_active) with _ | ⟨a, rest⟩
              · rw [hfe] at hms
                simp only [maybeSingle] at hms
                exact Option.noConfusion (Except.ok.inj hms)
              · rw [hfe] at hms
                cases rest with
                | nil =>
                  simp only [maybeSingle] at hms
                  have : a = r := by
                    have := Except.ok.inj hms
                    exact Option.some.inj this
                  rw [hfe, this]
                  exact List.mem_cons_self r []
                | cons b rest2 =>
                  simp only [maybeSingle] at hms
                  exact Except.noConfusion hms
            have hmem := List.mem_filter.mp hrmem
            have htok := truthyS_some (Bool.and_elim_left hcred)
            have hpid := truthyS_some (Bool.and_elim_right hcred)
            have hact : r.is_active = true := by
              have := hmem.2
              simp only [Bool.and_eq_true, decide_eq_true_eq] at this
              exact this.2
            refine ⟨r, hmem.1, hact, ?_, ?_, ?_, ?_⟩
            · rw [← hc]; exact htok.1
            · rw [← hc]; exact htok.2
            · rw [← hc]; exact hpid.1
            · rw [← hc]; exact hpid.2
          · rw [if_neg hcred] at h
            exact fallbackWhatsAppConfig_ok_inv h

/-- Witness for the amended C9: a user-scoped single active config with
credentials is returned as the user config. -/
theorem getWhatsAppConfig_precedence_witness :
    getWhatsAppConfig [cfgRowMain, cfgRowCred] (some "u1") = .ok
      { accessToken := "tokA", phoneNumberId := "pidA",
        whatsappBusinessAccountId := none, source := "user_config" } := by
  have h := (getWhatsAppConfig_precedence [cfgRowMain, cfgRowCred]).1 "u1" cfgRowMain
    (by decide) (by decide) (by decide)
  exact h

theorem processTurn_ok_sender (msg : EduMessage) (subj : Option String)
    (comp : Except String (Option String)) (fb : String) (logs1 : List ConvRecord) :
    ∀ m logs, processTurn msg subj comp fb logs1 = (.ok m, logs) → m.sender = "bot" := by
  intro m logs h
  cases comp with
  | error e =>
    unfold processTurn at h
    injection h with h1 h2
    exact Except.noConfusion h1
  | ok content =>
    unfold processTurn at h
    injection h with h1 h2
    injection h1 with h3
    rw [← h3]

theorem processBody_ok_sender (env : EduEnv) (msg : EduMessage) :
    ∀ m logs, processBody env msg = (.ok m, logs) → m.sender = "bot" := by
  intro m logs h
  unfold processBody at h
  cases hsub : env.subscription with
  | error e =>
    rw [hsub] at h
    injection h with h1 h2
    exact Except.noConfusion h1
  | ok b =>
    rw [hsub] at h
    dsimp only at h
    cases hst : env.studentRes with
    | error e =>
      rw [hst] at h
      injection h with h1 h2
      exact Except.noConfusion h1
    | ok student =>
      rw [hst] at h
      dsimp only at h
      cases hru : resolveUserId env student with
      | error e =>
        rw [hru] at h
        injection h with h1 h2
        exact Except.noConfusion h1
      | ok uid =>
        rw [hru] at h
        dsimp only at h
        cases hgc : env.groqClient uid with
        | error e =>
          rw [hgc] at h
          injection h with h1 h2
          exact Except.noConfusion h1
        | ok u =>
          rw [hgc] at h
          dsimp only at h
          cases himg : msg.imageUrl with
          | some url =>
            rw [himg] at h
            dsimp only at h
            exact processTurn_ok_sender _ _ _ _ _ m logs h
          | none =>
            rw [himg] at h
            dsimp only at h
            cases hana : env.analyzeRes with
            | error e =>
              rw [hana] at h
              injection h with h1 h2
              exact Except.noConfusion h1
            | ok a =>
              rw [hana] at h
              dsimp only at h
              exact processTurn_ok_sender _ _ _ _ _ m logs h

theorem resolveUserId_truthy {env : EduEnv} {st : Student}
    (h : truthyS st.user_id = true) :
    resolveUserId env st = .ok (st.user_id.getD "") := by
  simp [resolveUserId, h]

/-- C5: the Responder never raises — it always returns a bot message; a
throw anywhere in the body degrades to the fixed technical-difficulties
reply, and an empty or missing LLM completion yields the fixed
empty-completion fallback text. -/
theorem processCustomerMessage_never_raises (env : EduEnv) (msg : EduMessage) :
    (processCustomerMessage env msg).1.sender = "bot" ∧
    (∀ e, (processBody env msg).1 = .error e →
      (processCustomerMessage env msg).1.content = techDifficultiesFallback) ∧
    (∀ st, msg.imageUrl = none → env.studentRes = .ok st →
      truthyS st.user_id = true →
      env.groqClient (st.user_id.getD "") = .ok () →
      (∃ b, env.subscription = .ok b) →
      (∃ a, env.analyzeRes = .ok a) →
      (env.completion = .ok none ∨ env.completion = .ok (some "")) →
      (processCustomerMessage env msg).1.content = emptyCompletionFallback) := by
  refine ⟨?_, ?_, ?_⟩
  · rcases hpb : processBody env msg with ⟨res, logs⟩
    cases res with
    | ok bot =>
      have hs : bot.sender = "bot" := processBody_ok_sender env msg bot logs hpb
      rw [processCustomerMessage, hpb]
      exact hs
    | error e =>
      rw [processCustomerMessage, hpb]
  · intro e he
    rcases hpb : processBody env msg with ⟨res, logs⟩
    cases res with
    | ok bot =>
      rw [hpb] at he
      exact Except.noConfusion he
    | error e2 =>
      rw [processCustomerMessage, hpb]
  · rintro st himg hst htr hgc ⟨b, hsub⟩ ⟨a, hana⟩ hcomp
    have hru : resolveUserId env st = .ok (st.user_id.getD "") := resolveUserId_truthy htr
    have hbody : processBody env msg = (.ok
        { phoneNumber := msg.phoneNumber, content := emptyCompletionFallback,
          sender := "bot", imageUrl := none },
        [{ phone_number := msg.phoneNumber, content := msg.content,
           sender := msg.sender, intent := none }] ++
        [{ phone_number := msg.phoneNumber, content := emptyCompletionFallback,
           sender := "bot", intent := a.subject }]) := by
      rcases hcomp with hc | hc <;>
        simp only [processBody, hsub, hst, hru, hgc, himg, hana, hc, processTurn,
          respondWith, eq_self_iff_true, ite_true]
    rw [processCustomerMessage, hbody]

/-- Witness for C5: a thrown LLM call yields the technical-difficulties
fallback, a missing completion yields the empty-completion fallback. -/
theorem processCustomerMessage_never_raises_witness :
    (processCustomerMessage (eduEnvWith (.error "boom")) eduMsgW).1.content
      = techDifficultiesFallback ∧
    (processCustomerMessage (eduEnvWith (.ok none)) eduMsgW).1.content
      = emptyCompletionFallback := by
  constructor
  · exact (processCustomerMessage_never_raises (eduEnvWith (.error "boom")) eduMsgW).2.1
      "boom" rfl
  · exact (processCustomerMessage_never_raises (eduEnvWith (.ok none)) eduMsgW).2.2
      { id := "s1", user_id := some "u1" } rfl rfl (by decide) rfl
      ⟨true, rfl⟩ ⟨{ subject := some "math" }, rfl⟩ (Or.inl rfl)

/-- On the successful text path with a nonempty completion, the Responder
returns the completion text itself — whatever its length. -/
theorem processCustomerMessage_content_of_completion (env : EduEnv) (msg : EduMessage)
    (st : Student) (s : String) (himg : msg.imageUrl = none)
    (hst : env.studentRes = .ok st) (htr : truthyS st.user_id = true)
    (hgc : env.groqClient (st.user_id.getD "") = .ok ())
    (hsub : ∃ b, env.subscription = .ok b) (hana : ∃ a, env.analyzeRes = .ok a)
    (hcomp : env.completion = .ok (some s)) (hs : s ≠ "") :
    (processCustomerMessage env msg).1.content = s := by
  obtain ⟨b, hsub⟩ := hsub
  obtain ⟨a, hana⟩ := hana
  have hru : resolveUserId env st = .ok (st.user_id.getD "") := resolveUserId_truthy htr
  have hbody : processBody env msg = (.ok
      { phoneNumber := msg.phoneNumber, content := s,
        sender := "bot", imageUrl := none },
      [{ phone_number := msg.phoneNumber, content := msg.content,
         sender := msg.sender, intent := none }] ++
      [{ phone_number := msg.phoneNumber, content := s,
         sender := "bot", intent := a.subject }]) := by
    simp only [processBody, hsub, hst, hru, hgc, himg, hana, hcomp, processTurn,
      respondWith, if_neg hs]
  rw [processCustomerMessage, hbody]

theorem scriptStripA_id : ∀ f (l : List Char), (∀ c ∈ l, jsToLower c ≠ '<') →
    scriptStripA f l = l := by
  intro f
  induction f with
  | zero => intro l _; cases l <;> rfl
  | succ f ih =>
    intro l hl
    cases l with
    | nil => rfl
    | cons c t =>
      have hchop : ciChopLead "<script".data (c :: t) = none := by
        have hc : ¬ jsToLower '<' = jsToLower c := by
          have h1 : jsToLower '<' = '<' := rfl
          rw [h1]
          exact fun h => hl c (List.mem_cons_self c t) h.symm
        simp only [ciChopLead, if_neg hc]
      simp only [scriptStripA, hchop]
      rw [ih t (fun x hx => hl x (List.mem_cons_of_mem c hx))]

theorem scriptStrip_id {l : List Char} (h : ∀ c ∈ l, jsToLower c ≠ '<') :
    scriptStrip l = l :=
  scriptStripA_id l.length l h

/-- Counterexample to C6: a generated reply of 4097 characters is
returned by the Responder at its full 4097-character length, not
truncated to 4096. -/
theorem responder_no_truncation_counterexample :
    ((processCustomerMessage
        (eduEnvWith (.ok (some (String.mk (List.replicate 4097 'z'))))) eduMsgW).1.content).length
      = 4097 := by
  have h := processCustomerMessage_content_of_completion
    (eduEnvWith (.ok (some (String.mk (List.replicate 4097 'z'))))) eduMsgW
    { id := "s1", user_id := some "u1" } (String.mk (List.replicate 4097 'z'))
    rfl rfl (by decide) rfl ⟨true, rfl⟩ ⟨{ subject := some "math" }, rfl⟩ rfl
    (by
      intro hz
      have h2 : (List.replicate 4097 'z' : List Char) = [] := congrArg String.data hz
      have h3 := congrArg List.length h2
      rw [List.length_replicate, List.length_nil] at h3
      omega)
  rw [h]
  show (List.replicate 4097 'z').length = 4097
  rw [List.length_replicate]

/-- C6 (amended): the Responder (`processCustomerMessage`) applies no
truncation at all — the completion text is returned at full length; the
only reply truncation in the repository is in the api-chatbot serve
handler, which truncates replies longer than 4000 characters to their
first 3997 characters plus the three-dot marker (before markup
stripping), and leaves replies of at most 4000 characters untruncated. -/
theorem responder_truncation_behavior :
    (∀ (env : EduEnv) (msg : EduMessage) (st : Student) (s : String),
      msg.imageUrl = none → env.studentRes = .ok st → truthyS st.user_id = true →
      env.groqClient (st.user_id.getD "") = .ok () →
      (∃ b, env.subscription = .ok b) → (∃ a, env.analyzeRes = .ok a) →
      env.completion = .ok (some s) → s ≠ "" →
      (processCustomerMessage env msg).1.content = s) ∧
    (∀ r : String, (∀ c ∈ r.data, jsToLower c ≠ '<' ∧ isJsWs c = false) →
      (r.length > 4000 →
        apiChatbotPostProcess r = String.mk (r.data.take 3997 ++ "...".data)) ∧
      (r.length ≤ 4000 → apiChatbotPostProcess r = r)) := by
  constructor
  · intro env msg st s himg hst htr hgc hsub hana hcomp hs
    exact processCustomerMessage_content_of_completion env msg st s himg hst htr hgc
      hsub hana hcomp hs
  · intro r hr
    have hlt : ∀ c ∈ r.data, c ≠ '<' := by
      intro c hc hceq
      exact (hr c hc).1 (by rw [hceq]; rfl)
    constructor
    · intro hgt
      have hmem : ∀ c ∈ r.data.take 3997 ++ "...".data,
          jsToLower c ≠ '<' ∧ c ≠ '<' ∧ isJsWs c = false := by
        intro c hc
        rcases List.mem_append.mp hc with htk | hdot
        · have hcr := List.take_subset 3997 r.data htk
          exact ⟨(hr c hcr).1, hlt c hcr, (hr c hcr).2⟩
        · have hcd : c = '.' := by
            have : "...".data = ['.', '.', '.'] := rfl
            rw [this] at hdot
            rcases List.mem_cons.mp hdot with h | hdot2
            · exact h
            rcases List.mem_cons.mp hdot2 with h | hdot3
            · exact h
            rcases List.mem_cons.mp hdot3 with h | hdot4
            · exact h
            · exact absurd hdot4 (List.not_mem_nil c)
          subst hcd
          refine ⟨by decide, by decide, by decide⟩
      rw [apiChatbotPostProcess]
      rw [if_pos hgt]
      have hd : (String.mk (r.data.take 3997 ++ "...".data)).data
          = r.data.take 3997 ++ "...".data := rfl
      rw [hd, scriptStrip_id (fun c hc => (hmem c hc).1),
        rmTags_id (fun c hc => (hmem c hc).2.1),
        jsTrim_id (fun c hc => (hmem c hc).2.2)]
    · intro hle
      have hngt : ¬ r.length > 4000 := by omega
      rw [apiChatbotPostProcess, if_neg hngt,
        scriptStrip_id (fun c hc => (hr c hc).1),
        rmTags_id hlt, jsTrim_id (fun c hc => (hr c hc).2)]

/-- Witness for the amended C6: a short reply passes through the
Responder unchanged, and a 4100-character api-chatbot response is cut to
3997 characters plus the marker. -/
theorem responder_truncation_behavior_witness :
    (processCustomerMessage (eduEnvWith (.ok (some "texte"))) eduMsgW).1.content = "texte" ∧
    apiChatbotPostProcess (String.mk (List.replicate 4100 'b'))
      = String.mk (List.replicate 3997 'b' ++ "...".data) := by
  constructor
  · exact responder_truncation_behavior.1 (eduEnvWith (.ok (some "texte"))) eduMsgW
      { id := "s1", user_id := some "u1" } "texte" rfl rfl (by decide) rfl
      ⟨true, rfl⟩ ⟨{ subject := some "math" }, rfl⟩ rfl (by decide)
  · have h := (responder_truncation_behavior.2 (String.mk (List.replicate 4100 'b'))
      (by
        intro c hc
        have hcb : c = 'b' := List.eq_of_mem_replicate hc
        subst hcb
        exact ⟨by decide, by decide⟩)).1
      (by
        show (List.replicate 4100 'b').length > 4000
        rw [List.length_replicate]
        omega)
    rw [h]
    show String.mk ((List.replicate 4100 'b').take 3997 ++ "...".data) = _
    rw [List.take_replicate]
    have hm : (3997 : Nat) ⊓ 4100 = 3997 := by norm_num
    rw [hm]

/-- Counterexample to C7: a media send whose HEAD probe fails propagates
the media error and writes no `message_logs` record at all — the claimed
unconditional `error` record is absent. -/
theorem sendWhatsAppResponse_no_error_record_counterexample :
    sendWhatsAppResponse envHeadFail "+242060000001" "hello"
        (some { mtype := "image", url := "http://media.example/a.png" }) none
      = (.error "Invalid media URL: Media URL not accessible", []) := by
  rfl

/-- C7 (amended): `sendWhatsAppResponse` writes exactly one record with
status `sent` on success and propagates every failure without writing any
record; the per-message task of `sendWhatsAppMessages` writes exactly one
record on either outcome — `sent` on success, `error` on failure — but
returns an error result instead of propagating. -/
theorem deliveryRecord_write_behavior (env : SendEnv) (toNum message : String)
    (media : Option Media) (userId : Option String) :
    (∀ resp logs, sendWhatsAppResponse env toNum message media userId = (.ok resp, logs) →
      ∃ rec, logs = [rec] ∧ rec.status = "sent" ∧ rec.phone_number = toNum ∧
        rec.message_id = resp.messageId ∧ rec.error = none) ∧
    (∀ e logs, sendWhatsAppResponse env toNum message media userId = (.error e, logs) →
      logs = []) ∧
    (∀ m : BatchMsg, ∃ rec, (sendOneOfBatch env m).2 = [rec] ∧
      rec.phone_number = m.phoneNumber ∧
      (((sendOneOfBatch env m).1.status = "success" ∧ rec.status = "sent") ∨
       ((sendOneOfBatch env m).1.status = "error" ∧ rec.status = "error"))) := by
  refine ⟨?_, ?_, ?_⟩
  · intro resp logs h
    unfold sendWhatsAppResponse at h
    cases hs : sanitizeWhatsAppMessage message with
    | error e =>
      rw [hs] at h
      injection h with h1 h2
      exact Except.noConfusion h1
    | ok sanitizedMessage =>
      rw [hs] at h
      try dsimp only at h
      cases hc : getWhatsAppConfig env.configDb userId with
      | error e =>
        rw [hc] at h
        injection h with h1 h2
        exact Except.noConfusion h1
      | ok cfg =>
        rw [hc] at h
        try dsimp only at h
        cases hbp : buildPayload env toNum sanitizedMessage media with
        | error e =>
          rw [hbp] at h
          injection h with h1 h2
          exact Except.noConfusion h1
        | ok payload =>
          rw [hbp] at h
          try dsimp only at h
          cases hsa : env.sendApi payload with
          | error e =>
            rw [hsa] at h
            injection h with h1 h2
            exact Except.noConfusion h1
          | ok r =>
            rw [hsa] at h
            try dsimp only at h
            cases hok : r.ok with
            | false =>
              rw [hok] at h
              try dsimp only at h
              injection h with h1 h2
              exact Except.noConfusion h1
            | true =>
              rw [hok] at h
              try dsimp only at h
              injection h with h1 h2
              have hr : r = resp := Except.ok.inj h1
              subst hr
              exact ⟨_, h2.symm, rfl, rfl, rfl, rfl⟩
  · intro e logs h
    unfold sendWhatsAppResponse at h
    cases hs : sanitizeWhatsAppMessage message with
    | error e2 =>
      rw [hs] at h
      injection h with h1 h2
      exact h2.symm
    | ok sanitizedMessage =>
      rw [hs] at h
      try dsimp only at h
      cases hc : getWhatsAppConfig env.configDb userId with
      | error e2 =>
        rw [hc] at h
        injection h with h1 h2
        exact h2.symm
      | ok cfg =>
        rw [hc] at h
        try dsimp only at h
        cases hbp : buildPayload env toNum sanitizedMessage media with
        | error e2 =>
          rw [hbp] at h
          injection h with h1 h2
          exact h2.symm
        | ok payload =>
          rw [hbp] at h
          try dsimp only at h
          cases hsa : env.sendApi payload with
          | error e2 =>
            rw [hsa] at h
            injection h with h1 h2
            exact h2.symm
          | ok r =>
            rw [hsa] at h
            try dsimp only at h
            cases hok : r.ok with
            | false =>
              rw [hok] at h
              try dsimp only at h
              injection h with h1 h2
              exact h2.symm
            | true =>
              rw [hok] at h
              try dsimp only at h
              injection h with h1 h2
              exact Except.noConfusion h1
  · intro m
    cases hat : attemptOf env m with
    | error e =>
      rw [sendOneOfBatch, hat]
      exact ⟨_, rfl, rfl, Or.inr ⟨rfl, rfl⟩⟩
    | ok r =>
      rw [sendOneOfBatch, hat]
      exact ⟨_, rfl, rfl, Or.inl ⟨rfl, rfl⟩⟩

/-- Witness for the amended C7: a successful text send writes exactly the
one `sent` record. -/
theorem deliveryRecord_write_behavior_witness :
    ∃ rec, (sendWhatsAppResponse envAllOk "+242060000001" "hello" none none).2 = [rec] ∧
      rec.status = "sent" ∧ rec.phone_number = "+242060000001" ∧
      rec.message_id = some "wamid.1" ∧ rec.error = none := by
  have h := (deliveryRecord_write_behavior envAllOk "+242060000001" "hello" none none).1
    { ok := true, errMsg := "", messageId := some "wamid.1" }
    (sendWhatsAppResponse envAllOk "+242060000001" "hello" none none).2 (by rfl)
  exact h

theorem mapM_except_length {α β : Type} (f : α → Except String β) :
    ∀ (l : List α) (l' : List β), l.mapM f = .ok l' → l'.length = l.length := by
  intro l
  induction l with
  | nil =>
    intro l' h
    rw [List.mapM_nil] at h
    have : l' = [] := (Except.ok.inj h).symm
    rw [this]
    rfl
  | cons a t ih =>
    intro l' h
    rw [List.mapM_cons] at h
    cases hfa : f a with
    | error e =>
      rw [hfa] at h
      exact Except.noConfusion h
    | ok b =>
      rw [hfa] at h
      cases hmt : t.mapM f with
      | error e =>
        rw [hmt] at h
        exact Except.noConfusion h
      | ok bs =>
        rw [hmt] at h
        have : l' = b :: bs := (Except.ok.inj h).symm
        rw [this, List.length_cons, List.length_cons, ih bs hmt]

/-- Counterexample to C1: the 3-message batch whose second entry has an
invalid number yields a 2-element result list of two successes — the
invalid entry is dropped before send and gets no result entry, instead of
the claimed 3-element list with an error entry in the middle. -/
theorem sendMany_drops_invalid_counterexample :
    (sendWhatsAppMessages envAllOk batch3 none).1.map (fun r => (r.status, r.phoneNumber))
      = [("success", "+14155550001"), ("success", "+14155550003")] ∧
    ¬ (sendWhatsAppMessages envAllOk batch3 none).1.length = 3 := by
  constructor
  · rfl
  · intro h
    have h2 : (2 : Nat) = 3 := by
      have : (sendWhatsAppMessages envAllOk batch3 none).1.length = 2 := by rfl
      omega
    omega

/-- C1 (amended): when config resolution succeeds, the batch result has
exactly one entry per message surviving phone-number validation — invalid
entries are dropped with no result entry; the entries are, in order, the
per-message task results of the surviving messages; only when every
number is invalid does the outer catch produce one error entry per
original input.  A per-message task with no media and a succeeding
provider call yields a `success` entry. -/
theorem sendMany_result_shape (env : SendEnv) (messages : List BatchMsg)
    (userId : Option String) (cfg : WhatsAppConfig)
    (hcfg : getWhatsAppConfig env.configDb userId = .ok cfg) :
    ((messages.map
        (fun m => { m with phoneNumber := normalizePhoneNumber m.phoneNumber })).filter
        (fun m => phoneRegexTest m.phoneNumber) = [] →
      ∃ e, (sendWhatsAppMessages env messages userId).1
          = messages.map (fun m => batchErrResult m e) ∧
        (sendWhatsAppMessages env messages userId).1.length = messages.length) ∧
    (∀ processed,
      (messages.map
        (fun m => { m with phoneNumber := normalizePhoneNumber m.phoneNumber })).filter
        (fun m => phoneRegexTest m.phoneNumber) ≠ [] →
      ((messages.map
        (fun m => { m with phoneNumber := normalizePhoneNumber m.phoneNumber })).filter
        (fun m => phoneRegexTest m.phoneNumber)).mapM (fun m =>
          (sanitizeWhatsAppMessage (replaceMessageVariables m.message m.vars)).map
            (fun s => { m with message := s })) = .ok processed →
      (sendWhatsAppMessages env messages userId).1
          = processed.map (fun m => (sendOneOfBatch env m).1) ∧
      (sendWhatsAppMessages env messages userId).1.length
          = ((messages.map
              (fun m => { m with phoneNumber := normalizePhoneNumber m.phoneNumber })).filter
              (fun m => phoneRegexTest m.phoneNumber)).length) ∧
    (∀ m : BatchMsg, m.media = none →
      (∃ resp, env.sendApi { toNumber := m.phoneNumber, ptype := "text", textBody := some m.message, mediaLink := none, caption := none }
          = .ok resp ∧
        resp.ok = true) →
      (sendOneOfBatch env m).1.status = "success") := by
  refine ⟨?_, ?_, ?_⟩
  · intro hve
    refine ⟨"No valid phone numbers found. Original numbers: " ++
      String.intercalate ", " (messages.map (fun x => x.phoneNumber)), ?_, ?_⟩
    · rw [sendWhatsAppMessages, hcfg]
      try dsimp only
      rw [hve]
      rfl
    · rw [sendWhatsAppMessages, hcfg]
      try dsimp only
      rw [hve]
      show (messages.map _).length = messages.length
      rw [List.length_map]
  · intro processed hvne hmapm
    have hne : ((messages.map
        (fun m => { m with phoneNumber := normalizePhoneNumber m.phoneNumber })).filter
        (fun m => phoneRegexTest m.phoneNumber)).isEmpty = false := by
      cases hv : (messages.map
          (fun m => { m with phoneNumber := normalizePhoneNumber m.phoneNumber })).filter
          (fun m => phoneRegexTest m.phoneNumber) with
      | nil => exact absurd hv hvne
      | cons a t => rfl
    constructor
    · rw [sendWhatsAppMessages, hcfg]
      try dsimp only
      rw [hne]
      try dsimp only
      rw [hmapm]
      try dsimp only
      rw [List.map_map]
      rfl
    · rw [sendWhatsAppMessages, hcfg]
      try dsimp only
      rw [hne]
      try dsimp only
      rw [hmapm]
      try dsimp only
      show (List.map Prod.fst (List.map (sendOneOfBatch env) processed)).length = _
      rw [List.length_map, List.length_map]
      exact mapM_except_length _ _ processed hmapm
  · rintro m hmedia ⟨resp, hsa, hok⟩
    have hat : attemptOf env m = .ok resp := by
      rw [attemptOf, hmedia]
      dsimp only [buildPayload]
      rw [hsa]
      try dsimp only
      rw [hok]
      rfl
    rw [sendOneOfBatch, hat]

/-- Witness for the amended C1: the spec's 3-message batch with entry 2
invalid yields exactly the two success entries for entries 1 and 3. -/
theorem sendMany_result_shape_witness :
    (sendWhatsAppMessages envAllOk batch3 none).1
      = [{ status := "success", phoneNumber := "+14155550001", message := "hello one",
           messageId := some "wamid.1", error := none },
         { status := "success", phoneNumber := "+14155550003", message := "hello three",
           messageId := some "wamid.1", error := none }] ∧
    (sendWhatsAppMessages envAllOk batch3 none).1.length = 2 := by
  have h := ((sendMany_result_shape envAllOk batch3 none
      { accessToken := "tokA", phoneNumberId := "pidA",
        whatsappBusinessAccountId := none, source := "fallback_user_config" }
      (by rfl)).2.1
    [{ phoneNumber := "+14155550001", message := "hello one", vars := [], media := none },
     { phoneNumber := "+14155550003", message := "hello three", vars := [], media := none }]
    (by decide) (by rfl))
  constructor
  · rw [h.1]
    rfl
  · rw [h.2]
    rfl

end ExpertProspection
